import Mathlib

/-!
Shallow embedding of the vividshift assignment/rule engine core:
JSON-like attribute values, generic entities, the balanced-rotation,
random and skill-based assignment strategies, the capacity and
availability validators, and the rule-engine orchestration
(`execute_assignment`, `run_validations`, `check_validation_results`),
together with the legacy bounded-retry distribution loop.
Machine floats are modelled with `ℚ`; UUIDs with `ℕ`; `HashMap` with
association lists; the thread-local RNG with explicit per-attempt
shuffled lists supplied as a parameter.
-/

namespace VividShift

/-- JSON value (`serde_json::Value`), with numbers as rationals. -/
inductive JValue where
  | jnull : JValue
  | jbool : Bool → JValue
  | jnum : ℚ → JValue
  | jstr : String → JValue
  | jarr : List JValue → JValue
  | jobj : List (String × JValue) → JValue

namespace JValue

/-- `Value::as_f64`: any JSON number converts. -/
def asF64 : JValue → Option ℚ
  | jnum q => some q
  | _ => none

/-- `Value::as_u64`: the number must be a non-negative integer fitting u64. -/
def asU64 : JValue → Option ℕ
  | jnum q => if q.den = 1 ∧ 0 ≤ q.num ∧ q.num ≤ 2 ^ 64 - 1 then some q.num.toNat else none
  | _ => none

/-- `Value::as_bool`. -/
def asBool : JValue → Option Bool
  | jbool b => some b
  | _ => none

/-- `Value::as_object`. -/
def asObject : JValue → Option (List (String × JValue))
  | jobj fields => some fields
  | _ => none

/-- Deserializing a `String` from a JSON value (`serde_json::from_value`). -/
def asString : JValue → Option String
  | jstr s => some s
  | _ => none

/-- Deserializing a `u32` from a JSON value. -/
def asU32 : JValue → Option ℕ
  | jnum q => if q.den = 1 ∧ 0 ≤ q.num ∧ q.num ≤ 2 ^ 32 - 1 then some q.num.toNat else none
  | _ => none

/-- Deserializing a `Vec<String>` from a JSON value. -/
def asStrList : JValue → Option (List String)
  | jarr xs => xs.mapM asString
  | _ => none

end JValue

/-- `GenericEntity`: id plus an open attribute bag
(entity metadata and timestamps are not read by the core and are omitted). -/
structure GenericEntity where
  id : ℕ
  entity_type : String
  attributes : List (String × JValue)

namespace GenericEntity

/-- `get_attribute::<String>`. -/
def getAttrString (e : GenericEntity) (key : String) : Option String :=
  (e.attributes.lookup key).bind JValue.asString

/-- `get_attribute::<u32>`. -/
def getAttrU32 (e : GenericEntity) (key : String) : Option ℕ :=
  (e.attributes.lookup key).bind JValue.asU32

/-- `get_attribute::<bool>`. -/
def getAttrBool (e : GenericEntity) (key : String) : Option Bool :=
  (e.attributes.lookup key).bind JValue.asBool

/-- `get_attribute::<Vec<String>>`. -/
def getAttrStrList (e : GenericEntity) (key : String) : Option (List String) :=
  (e.attributes.lookup key).bind JValue.asStrList

end GenericEntity

/-- `Assignment`: participant, target, confidence score and metadata. -/
structure Assignment where
  participant_id : ℕ
  target_id : ℕ
  confidence : ℚ
  metadata : List (String × JValue)

/-- `ValidationSeverity` (Info < Warning < Error < Critical). -/
inductive ValidationSeverity where
  | info : ValidationSeverity
  | warning : ValidationSeverity
  | error : ValidationSeverity
  | critical : ValidationSeverity
deriving DecidableEq, Repr

/-- `ValidationResult`. -/
structure ValidationResult where
  rule_name : String
  passed : Bool
  message : Option String
  severity : ValidationSeverity
deriving DecidableEq, Repr

/-- `AssignmentConstraint` (carried by configs, not read by the strategies). -/
structure AssignmentConstraint where
  name : String
  constraint_type : String
  parameters : List (String × JValue)

/-- `StrategyConfig`. -/
structure StrategyConfig where
  name : String
  parameters : List (String × JValue)
  constraints : List AssignmentConstraint
  validation_rules : List String


/-! ## Balanced-rotation assignment strategy (`balanced_rotation.rs`) -/

/-- `get_rotation_weight`: parameter `rotation_weight`, default 0.7. -/
def getRotationWeight (config : StrategyConfig) : ℚ :=
  ((config.parameters.lookup "rotation_weight").bind JValue.asF64).getD (7 / 10)

/-- `get_balance_weight`: parameter `balance_weight`, default 0.3. -/
def getBalanceWeight (config : StrategyConfig) : ℚ :=
  ((config.parameters.lookup "balance_weight").bind JValue.asF64).getD (3 / 10)

/-- `get_max_attempts`: parameter `max_attempts`, default 50, cast `as u32`. -/
def getMaxAttempts (config : StrategyConfig) : ℕ :=
  (((config.parameters.lookup "max_attempts").bind JValue.asU64).getD 50) % 2 ^ 32

/-- Participant history, `participant_id -> list of previous assignments`. -/
abbrev History : Type := List (ℕ × List String)

/-- The `rotation_score` part of `calculate_assignment_score`: 1.0 without
history (or with an empty one), else `1 - target_count / recent_assignments`
where `recent_assignments = min (history length) 10` but `target_count`
counts occurrences of the target name in the whole history list. -/
def rotationScoreOf (history : History) (participant_id : ℕ) (target_name : String) : ℚ :=
  match List.lookup participant_id history with
  | some h =>
      let recent_assignments := min h.length 10
      let target_count := (h.filter (fun t => t = target_name)).length
      if recent_assignments = 0 then 1 else 1 - (target_count : ℚ) / (recent_assignments : ℚ)
  | none => 1

/-- `calculate_assignment_score`: weighted sum of the rotation score and the
placeholder balance score 0.5. -/
def calculateAssignmentScore (history : History) (participant_id : ℕ) (target_name : String)
    (rotation_weight balance_weight : ℚ) : ℚ :=
  rotation_weight * rotationScoreOf history participant_id target_name
    + balance_weight * (1 / 2)

/-- `participant_scores.sort_by(|a, b| b.1.partial_cmp(&a.1).unwrap())`:
stable sort, descending by score (insertion sort is stable for this total
relation, like Rust's `sort_by`). -/
def sortByScoreDesc (l : List (GenericEntity × ℚ)) : List (GenericEntity × ℚ) :=
  l.insertionSort (fun a b => b.2 ≤ a.2)

/-- Metadata attached by the balanced strategy to each `Assignment`. -/
def balancedMeta (score : ℚ) (target_name : String) : List (String × JValue) :=
  [("strategy", JValue.jstr "balanced_rotation"),
   ("score", JValue.jnum score),
   ("target_name", JValue.jstr target_name)]

/-- The per-target loop body of `attempt_assignment`: walks the target list,
scoring and sorting the available participants for each target, taking the
top `required_count`, removing them from the pool, and failing when fewer
than `required_count` could be taken. -/
def attemptGo (history : History) (rotation_weight balance_weight : ℚ) :
    List GenericEntity → List GenericEntity → List Assignment →
    Except String (List Assignment)
  | [], _, acc => .ok acc
  | target :: rest, available, acc =>
    match target.getAttrString "name" with
    | none => .error "Target missing name attribute"
    | some target_name =>
      match target.getAttrU32 "required_count" with
      | none => .error "Target missing required_count attribute"
      | some required_count =>
        let participant_scores := available.map fun p =>
          (p, calculateAssignmentScore history p.id target_name rotation_weight balance_weight)
        let sorted := sortByScoreDesc participant_scores
        let assignments_needed := min required_count sorted.length
        let chosen := sorted.take assignments_needed
        let new_assignments := chosen.map fun pc =>
          { participant_id := pc.1.id, target_id := target.id, confidence := pc.2,
            metadata := balancedMeta pc.2 target_name : Assignment }
        if assignments_needed < required_count then
          .error ("Not enough participants available for target \x27" ++ target_name ++
            "\x27. Required: " ++ toString required_count ++ ", Available: " ++
            toString assignments_needed)
        else
          attemptGo history rotation_weight balance_weight rest
            (available.filter fun p => chosen.all fun c => c.1.id ≠ p.id)
            (acc ++ new_assignments)

/-- `attempt_assignment`, given the shuffled participant pool produced by
`available_participants.shuffle(&mut rng)`. -/
def attemptAssignment (history : History) (shuffled : List GenericEntity)
    (targets : List GenericEntity) (config : StrategyConfig) :
    Except String (List Assignment) :=
  attemptGo history (getRotationWeight config) (getBalanceWeight config) targets shuffled []

/-- The terminal error message of `execute` after exhausting all attempts. -/
def exhaustedMsg (max_attempts : ℕ) (last_error : String) : String :=
  "Failed to generate assignment after " ++ toString max_attempts ++
    " attempts. Last error: " ++ last_error

/-- The `for attempt in 1..=max_attempts` retry loop of `execute`; `shuffles`
gives the shuffled participant order drawn by the thread RNG on each attempt,
`remaining` counts attempts still allowed. -/
def balancedLoop (history : History) (shuffles : ℕ → List GenericEntity)
    (targets : List GenericEntity) (config : StrategyConfig) (max_attempts : ℕ) :
    ℕ → ℕ → Except String (List Assignment)
  | _, 0 => .error "Assignment generation failed"
  | attempt, remaining + 1 =>
    match attemptAssignment history (shuffles attempt) targets config with
    | .ok assignments => .ok assignments
    | .error e =>
      if remaining = 0 then .error (exhaustedMsg max_attempts e)
      else balancedLoop history shuffles targets config max_attempts (attempt + 1) remaining

/-- `BalancedRotationStrategy::execute`: bounded retry around
`attempt_assignment`, surfacing the attempt count on exhaustion. -/
def balancedExecute (history : History) (shuffles : ℕ → List GenericEntity)
    (targets : List GenericEntity) (config : StrategyConfig) :
    Except String (List Assignment) :=
  let max_attempts := getMaxAttempts config
  balancedLoop history shuffles targets config max_attempts 1 max_attempts

/-- The `rotation_weight` block of `validate_config`. -/
def checkRotationWeight (config : StrategyConfig) : Except String Unit :=
  match config.parameters.lookup "rotation_weight" with
  | some weight =>
    match weight.asF64 with
    | some w =>
      if ¬(0 ≤ w ∧ w ≤ 1) then .error "rotation_weight must be between 0.0 and 1.0"
      else .ok ()
    | none => .error "rotation_weight must be a number"
  | none => .ok ()

/-- The `balance_weight` block of `validate_config`. -/
def checkBalanceWeight (config : StrategyConfig) : Except String Unit :=
  match config.parameters.lookup "balance_weight" with
  | some weight =>
    match weight.asF64 with
    | some w =>
      if ¬(0 ≤ w ∧ w ≤ 1) then .error "balance_weight must be between 0.0 and 1.0"
      else .ok ()
    | none => .error "balance_weight must be a number"
  | none => .ok ()

/-- The `max_attempts` block of `validate_config`. -/
def checkMaxAttemptsParam (config : StrategyConfig) : Except String Unit :=
  match config.parameters.lookup "max_attempts" with
  | some attempts =>
    match attempts.asU64 with
    | some a =>
      if a = 0 ∨ a > 1000 then .error "max_attempts must be between 1 and 1000"
      else .ok ()
    | none => .error "max_attempts must be a positive integer"
  | none => .ok ()

/-- `BalancedRotationStrategy::validate_config`: the three parameter checks
in order, each early-returning on failure. -/
def balancedValidateConfig (config : StrategyConfig) : Except String Unit :=
  match checkRotationWeight config with
  | .error e => .error e
  | .ok _ =>
    match checkBalanceWeight config with
    | .error e => .error e
    | .ok _ => checkMaxAttemptsParam config

/-! ## Random assignment strategy (`random_assignment.rs`) -/

/-- Metadata attached by the random strategy. -/
def randomMeta (target : GenericEntity) : List (String × JValue) :=
  [("strategy", JValue.jstr "random"),
   ("target_name", JValue.jstr ((target.getAttrString "name").getD ""))]

/-- `RandomAssignmentStrategy::execute`, given the shuffled participants:
for each target it pushes `required_count` assignments, each time reading
`shuffled_participants.first()` (the pool is never shrunk). -/
def randomExecute (shuffled : List GenericEntity) (targets : List GenericEntity) :
    List Assignment :=
  targets.flatMap fun target =>
    let required_count := (target.getAttrU32 "required_count").getD 1
    match shuffled.head? with
    | some participant =>
        List.replicate required_count
          { participant_id := participant.id, target_id := target.id,
            confidence := 1 / 2, metadata := randomMeta target : Assignment }
    | none => []

/-! ## Skill-based assignment strategy (`skill_based.rs`) -/

/-- Number of required skills the participant has
(`required_skills.iter().filter(|s| participant_skills.contains(s)).count()`). -/
def skillMatchCount (required_skills participant_skills : List String) : ℕ :=
  (required_skills.filter fun skill => participant_skills.contains skill).length

/-- Metadata attached by the skill-based strategy. -/
def skillMeta (match_count : ℕ) (target : GenericEntity) : List (String × JValue) :=
  [("strategy", JValue.jstr "skill_based"),
   ("skill_match_score", JValue.jnum match_count),
   ("target_name", JValue.jstr ((target.getAttrString "name").getD ""))]

/-- `SkillBasedStrategy::execute`: per target, filter participants having any
required skill, stable-sort them by match count descending, take the top
`required_count`, confidence `matched / required` (0.5 when no skills are
required). -/
def skillExecute (participants : List GenericEntity) (targets : List GenericEntity) :
    List Assignment :=
  targets.flatMap fun target =>
    let required_count := (target.getAttrU32 "required_count").getD 1
    let required_skills := (target.getAttrStrList "required_skills").getD []
    let suitable := participants.filter fun p =>
      let participant_skills := (p.getAttrStrList "skills").getD []
      required_skills.any fun skill => participant_skills.contains skill
    let sorted := suitable.insertionSort fun a b =>
      skillMatchCount required_skills ((b.getAttrStrList "skills").getD []) ≤
        skillMatchCount required_skills ((a.getAttrStrList "skills").getD [])
    (sorted.take required_count).map fun participant =>
      let participant_skills := (participant.getAttrStrList "skills").getD []
      let match_count := skillMatchCount required_skills participant_skills
      let confidence : ℚ :=
        if required_skills.isEmpty then 1 / 2
        else (match_count : ℚ) / (required_skills.length : ℚ)
      { participant_id := participant.id, target_id := target.id,
        confidence := confidence, metadata := skillMeta match_count target : Assignment }

/-! ## Capacity-check validator (`capacity_check.rs`) -/

/-- Assignments counted per target id (the `target_counts` HashMap). -/
def targetCount (assignments : List Assignment) (target_id : ℕ) : ℕ :=
  (assignments.filter fun a => a.target_id = target_id).length

/-- The violation string for an over-assigned target. -/
def overMsg (target_name : String) (assigned required : ℕ) : String :=
  "Target \x27" ++ target_name ++ "\x27 has " ++ toString assigned ++
    " assignments but only needs " ++ toString required

/-- The message for an under-assigned target (pushed only in strict mode,
otherwise merely logged). -/
def underMsg (target_name : String) (assigned required : ℕ) : String :=
  "Target \x27" ++ target_name ++ "\x27 has " ++ toString assigned ++
    " assignments but needs " ++ toString required

/-- The display name used by the validator
(`get_attribute("name").unwrap_or_else(|| format!("Target-{}", id))`). -/
def targetDisplayName (target : GenericEntity) : String :=
  (target.getAttrString "name").getD ("Target-" ++ toString target.id)

/-- The `violations` vector built by `CapacityCheckValidator::validate`. -/
def capacityViolations (assignments : List Assignment) (strict_mode : Bool) :
    List GenericEntity → List String
  | [] => []
  | target :: rest =>
    let required_count := (target.getAttrU32 "required_count").getD 1
    let assigned_count := targetCount assignments target.id
    let target_name := targetDisplayName target
    let here :=
      if required_count < assigned_count then
        [overMsg target_name assigned_count required_count]
      else if assigned_count < required_count ∧ strict_mode then
        [underMsg target_name assigned_count required_count]
      else []
    here ++ capacityViolations assignments strict_mode rest

/-- `CapacityCheckValidator::validate`. -/
def capacityValidate (assignments : List Assignment) (_participants : List GenericEntity)
    (targets : List GenericEntity) (config : List (String × JValue)) :
    Except String ValidationResult :=
  let strict_mode := ((config.lookup "strict").bind JValue.asBool).getD true
  let violations := capacityViolations assignments strict_mode targets
  .ok { rule_name := "capacity_check",
        passed := violations.isEmpty,
        message := some (if violations.isEmpty then "All targets have appropriate capacity"
                         else String.intercalate "; " violations),
        severity := if strict_mode then .error else .warning }

/-! ## Availability-check validator (`availability_check.rs`) -/

/-- The `participant_availability` map: built by inserting
`get_attribute("availability").unwrap_or(true)` for each participant in
order (later entries overwrite earlier ones). -/
def availabilityMap (participants : List GenericEntity) : List (ℕ × Bool) :=
  participants.foldl
    (fun m p => (p.id, (p.getAttrBool "availability").getD true) ::
      m.filter fun e => e.1 ≠ p.id)
    []

/-- The participant display name used in the validator message. -/
def participantDisplayName (participants : List GenericEntity) (pid : ℕ) : String :=
  (((participants.find? fun p => p.id = pid).bind fun p =>
      p.getAttrString "name")).getD ("Participant-" ++ toString pid)

/-- The `unavailable_assignments` vector: one name per assignment whose
participant is present in the availability map with value `false`. -/
def unavailableNames (participants : List GenericEntity) (assignments : List Assignment) :
    List String :=
  (assignments.filter fun a =>
      (availabilityMap participants).lookup a.participant_id = some false).map
    fun a => participantDisplayName participants a.participant_id

/-- `AvailabilityCheckValidator::validate`. -/
def availabilityValidate (assignments : List Assignment) (participants : List GenericEntity)
    (_targets : List GenericEntity) (config : List (String × JValue)) :
    Except String ValidationResult :=
  let strict_mode := ((config.lookup "strict").bind JValue.asBool).getD false
  let unavailable := unavailableNames participants assignments
  .ok { rule_name := "availability_check",
        passed := unavailable.isEmpty,
        message := some (if unavailable.isEmpty then "All assigned participants are available"
                         else "Unavailable participants assigned: " ++
                           String.intercalate ", " unavailable),
        severity := if strict_mode then .error else .warning }

/-! ## Rule engine (`rule_engine.rs`) -/

/-- `ValidationMode`. -/
inductive ValidationMode where
  | strict : ValidationMode
  | permissive : ValidationMode
  | bestEffort : ValidationMode
deriving DecidableEq, Repr

/-- A registered `AssignmentStrategy` trait object: its `execute` and
`validate_config` methods. -/
structure StrategyImpl where
  execute : List GenericEntity → List GenericEntity → StrategyConfig →
    Except String (List Assignment)
  validateConfig : StrategyConfig → Except String Unit

/-- A registered `ValidationRule` trait object: its `validate` method. -/
def ValidatorImpl : Type :=
  List Assignment → List GenericEntity → List GenericEntity →
    List (String × JValue) → Except String ValidationResult

/-- The per-rule config extracted by `run_validations`:
`parameters["validation_" + rule_name]` as an object, defaulting to empty. -/
def ruleConfigFor (parameters : List (String × JValue)) (rule_name : String) :
    List (String × JValue) :=
  ((parameters.lookup ("validation_" ++ rule_name)).bind JValue.asObject).getD []

/-- The substitute result pushed when a validator itself returns an error. -/
def validatorErrorResult (rule_name : String) (e : String) : ValidationResult :=
  { rule_name := rule_name, passed := false,
    message := some ("Validation error: " ++ e), severity := .error }

/-- The loop body of `run_validations` over the configured rule names:
unregistered names are skipped (warning only), a validator error is turned
into a failing Error-severity result, and all other validators still run. -/
def runValidationRules (validators : List (String × ValidatorImpl))
    (assignments : List Assignment) (participants targets : List GenericEntity)
    (parameters : List (String × JValue)) : List String → List ValidationResult
  | [] => []
  | rule_name :: rest =>
    match validators.lookup rule_name with
    | none => runValidationRules validators assignments participants targets parameters rest
    | some validator =>
      match validator assignments participants targets (ruleConfigFor parameters rule_name) with
      | .ok result =>
        result :: runValidationRules validators assignments participants targets parameters rest
      | .error e =>
        validatorErrorResult rule_name e ::
          runValidationRules validators assignments participants targets parameters rest

/-- `RuleEngine::run_validations` (its `Result` is always `Ok`). -/
def runValidations (validators : List (String × ValidatorImpl))
    (assignments : List Assignment) (participants targets : List GenericEntity)
    (config : StrategyConfig) : List ValidationResult :=
  runValidationRules validators assignments participants targets config.parameters
    config.validation_rules

/-- The error message produced by strict-mode validation failure. -/
def validationFailedMsg (r : ValidationResult) : String :=
  "Validation failed: " ++ r.rule_name ++ " - " ++ r.message.getD "Unknown error"

/-- Whether a result blocks in strict mode: failed with Error or Critical. -/
def blocking (r : ValidationResult) : Bool :=
  ¬r.passed ∧ (r.severity = .error ∨ r.severity = .critical)

/-- `RuleEngine::check_validation_results`: strict mode aborts on the first
blocking result; permissive and best-effort modes always succeed. -/
def checkValidationResults (mode : ValidationMode) (results : List ValidationResult) :
    Except String Unit :=
  match mode with
  | .strict =>
    match results.find? blocking with
    | some r => .error (validationFailedMsg r)
    | none => .ok ()
  | .permissive => .ok ()
  | .bestEffort => .ok ()

/-- The fields of `AssignmentResult` the core computes (ids, wall-clock time
and timestamps are caller/environment supplied and omitted). -/
structure RunResult where
  strategy_used : String
  assignments : List Assignment
  attempts : ℕ
  validation_results : List ValidationResult

/-- `RuleEngine::execute_assignment`: look up the strategy, validate its
config, execute it, run the configured validators, apply the validation
mode, and package the result (with `attempts := 1` as in the code). -/
def executeAssignment (strategies : List (String × StrategyImpl))
    (validators : List (String × ValidatorImpl)) (mode : ValidationMode)
    (strategy_name : String) (participants targets : List GenericEntity)
    (config : StrategyConfig) : Except String RunResult :=
  match strategies.lookup strategy_name with
  | none => .error ("Strategy \x27" ++ strategy_name ++ "\x27 not found")
  | some strategy =>
    match strategy.validateConfig config with
    | .error e => .error e
    | .ok _ =>
      match strategy.execute participants targets config with
      | .error e => .error e
      | .ok assignments =>
        let validation_results :=
          runValidations validators assignments participants targets config
        match checkValidationResults mode validation_results with
        | .error e => .error e
        | .ok _ =>
          .ok { strategy_used := strategy_name, assignments := assignments,
                attempts := 1, validation_results := validation_results }

/-! ## Legacy distribution retry loop (`assignment_engine.rs`) -/

/-- The legacy attempt cap, `const MAX_ATTEMPTS: u32 = 500`. -/
def legacyMaxAttempts : ℕ := 500

/-- The `for attempt in 1..=MAX_ATTEMPTS` loop of `perform_distribution`:
`tryAttempt n` is the outcome of `group::distribute_work` on attempt `n`
(errors are ignored and the loop simply continues). -/
def legacyLoop (tryAttempt : ℕ → Option α) : ℕ → ℕ → Option α
  | _, 0 => none
  | attempt, remaining + 1 =>
    match tryAttempt attempt with
    | some assignments => some assignments
    | none => legacyLoop tryAttempt (attempt + 1) remaining

/-- The terminal error of `perform_distribution` when no attempt succeeds. -/
def legacyExhaustedMsg : String :=
  "Could not find a valid assignment after " ++ toString legacyMaxAttempts ++ " attempts."

/-- The retry section of `perform_distribution` (steps 4-5): first success
within 500 attempts, else the terminal error naming the attempt count. -/
def legacyDistribution (tryAttempt : ℕ → Option α) : Except String α :=
  match legacyLoop tryAttempt 1 legacyMaxAttempts with
  | some assignments => .ok assignments
  | none => .error legacyExhaustedMsg

/-! ## Spec-side definitions (for refinement comparison) and helpers -/

/-- The (participant, target) pair of an assignment list, for duplicate
checks. -/
def assignmentPairs (l : List Assignment) : List (ℕ × ℕ) :=
  l.map fun a => (a.participant_id, a.target_id)

/-- The rotation score exactly as the spec words it: 1.0 with no history,
else `1 - (times assigned to this exact target within the last N history
entries) / N`, with `N = min (history length) 10` and the most recent
entries at the front of the list (the convention of `history.rs`, which
prepends new entries). -/
def specRotationScore (history : History) (participant_id : ℕ) (target_name : String) : ℚ :=
  match List.lookup participant_id history with
  | none => 1
  | some h =>
      let n := min h.length 10
      if n = 0 then 1
      else 1 - (((h.take n).filter fun t => t = target_name).length : ℚ) / (n : ℚ)

/-- Whether the character sequence `needle` occurs at the head of `hay`. -/
def seqStartsWith : List Char → List Char → Bool
  | [], _ => true
  | _ :: _, [] => false
  | a :: as, b :: bs => a = b && seqStartsWith as bs

/-- Whether `needle` occurs anywhere inside `hay`. -/
def seqContainsSub (needle : List Char) : List Char → Bool
  | [] => seqStartsWith needle []
  | hay@(_ :: rest) => seqStartsWith needle hay || seqContainsSub needle rest

/-- Whether a validator message mentions the shortfall, as the spec words
it: modelled as containing the word "needs", which appears in every
capacity message that reports counts and in no other capacity message. -/
def specMentionsShortfall (message : String) : Bool :=
  seqContainsSub "needs".toList message.toList

/-- The balanced-rotation strategy as a registered `StrategyImpl`, with its
injected history and the RNG draws for each attempt. -/
def balancedStrategyImpl (history : History) (shuffles : ℕ → List GenericEntity) :
    StrategyImpl :=
  { execute := fun _participants targets config => balancedExecute history shuffles targets config,
    validateConfig := balancedValidateConfig }

/-- The strategy registry as bootstrapped in `main.rs` (only the balanced
rotation strategy is registered). -/
def bootStrategies (history : History) (shuffles : ℕ → List GenericEntity) :
    List (String × StrategyImpl) :=
  [("balanced_rotation", balancedStrategyImpl history shuffles)]

/-- The validator registry as bootstrapped in `main.rs`. -/
def bootValidators : List (String × ValidatorImpl) :=
  [("capacity_check", capacityValidate), ("availability_check", availabilityValidate)]

/-- The three `validate_config` error messages about `rotation_weight`. -/
def rotationWeightMsgs : List String :=
  ["rotation_weight must be between 0.0 and 1.0", "rotation_weight must be a number"]

/-- The two `validate_config` error messages about `balance_weight`. -/
def balanceWeightMsgs : List String :=
  ["balance_weight must be between 0.0 and 1.0", "balance_weight must be a number"]

/-- The two `validate_config` error messages about `max_attempts`. -/
def maxAttemptsMsgs : List String :=
  ["max_attempts must be between 1 and 1000", "max_attempts must be a positive integer"]

/-- A weight parameter value rejected by `validate_config`: present but not
a number, or a number outside [0, 1]. -/
def badWeightValue (v : JValue) : Prop :=
  v.asF64 = none ∨ ∃ w, v.asF64 = some w ∧ ¬(0 ≤ w ∧ w ≤ 1)

/-- A `max_attempts` value rejected by `validate_config`: present but not a
u64, or zero, or above 1000. -/
def badMaxAttemptsValue (v : JValue) : Prop :=
  v.asU64 = none ∨ ∃ a, v.asU64 = some a ∧ (a = 0 ∨ a > 1000)

/-- Concrete participant with an empty attribute bag. -/
def cexParticipant : GenericEntity :=
  { id := 1, entity_type := "participant", attributes := [] }

/-- Concrete target named Kitchen requiring two participants. -/
def cexTargetReq2 : GenericEntity :=
  { id := 2, entity_type := "target",
    attributes := [("name", JValue.jstr "Kitchen"), ("required_count", JValue.jnum 2)] }

/-- Concrete target named Kitchen requiring one participant. -/
def cexTargetReq1 : GenericEntity :=
  { id := 2, entity_type := "target",
    attributes := [("name", JValue.jstr "Kitchen"), ("required_count", JValue.jnum 1)] }

/-- A config putting full weight on both rotation and balance; each weight
is inside [0, 1], so `validate_config` accepts it. -/
def cexFullWeightsConfig : StrategyConfig :=
  { name := "balanced_rotation",
    parameters := [("rotation_weight", JValue.jnum 1), ("balance_weight", JValue.jnum 1)],
    constraints := [], validation_rules := [] }

/-- A history in which participant 1 was assigned target T once, eleven
assignments ago, and something else in the ten most recent entries. -/
def cexLongHistory : History := [(1, List.replicate 10 "X" ++ ["T"])]

/-- A single concrete assignment of participant 1 to target 2. -/
def cexAssignment : Assignment :=
  { participant_id := 1, target_id := 2, confidence := 1 / 2, metadata := [] }

/-- A config with `max_attempts` set to 2. -/
def cex2AttemptsConfig : StrategyConfig :=
  { name := "balanced_rotation",
    parameters := [("max_attempts", JValue.jnum 2)],
    constraints := [], validation_rules := [] }

/-- A config whose `rotation_weight` is a string, rejected by
`validate_config`. -/
def cexBadConfig : StrategyConfig :=
  { name := "balanced_rotation",
    parameters := [("rotation_weight", JValue.jstr "high")],
    constraints := [], validation_rules := [] }

/-- A validator that itself fails with an error. -/
def cexFailingValidator : ValidatorImpl :=
  fun _ _ _ _ => .error "kaput"

/-- A participant whose attributes carry `availability = false`. -/
def cexUnavailableParticipant : GenericEntity :=
  { id := 7, entity_type := "participant",
    attributes := [("name", JValue.jstr "Dana"), ("availability", JValue.jbool false)] }

/-- An assignment of the unavailable participant to target 2. -/
def cexUnavailableAssignment : Assignment :=
  { participant_id := 7, target_id := 2, confidence := 1 / 2, metadata := [] }

/-- The `ValidationResult` the availability check returns on the witness
inputs. -/
def cexAvailabilityResult : ValidationResult :=
  { rule_name := "availability_check", passed := false,
    message := some "Unavailable participants assigned: Dana",
    severity := .warning }

/-! ## Helper lemmas -/

theorem lookup_mem {α β : Type} [DecidableEq α] {k : α} {v : β} :
    ∀ {l : List (α × β)}, List.lookup k l = some v → (k, v) ∈ l := by
  intro l
  induction l with
  | nil => intro h; simp [List.lookup] at h
  | cons hd tl ih =>
    obtain ⟨a, b⟩ := hd
    simp only [List.lookup]
    cases hab : k == a with
    | true =>
      intro h
      cases h
      cases eq_of_beq hab
      exact List.mem_cons_self _ _
    | false =>
      intro h
      exact List.mem_cons_of_mem _ (ih h)

/-- C1: the random strategy assigns the same (sole) participant twice to a
target requiring two people: the returned list repeats the
(participant, target) pair, so the no-duplicate invariant fails. -/
theorem c1_random_duplicate_eval :
    assignmentPairs (randomExecute [cexParticipant] [cexTargetReq2]) = [(1, 2), (1, 2)] ∧
    ¬(assignmentPairs (randomExecute [cexParticipant] [cexTargetReq2])).Nodup := by
  decide

/-- C3 counterexample: for a participant whose sole assignment to T is
eleven entries back, the spec formula over the last N = 10 entries gives
1.0, but the code counts the occurrence in the whole history and returns
0.9. -/
theorem c3_counterexample :
    specRotationScore cexLongHistory 1 "T" = 1 ∧
    rotationScoreOf cexLongHistory 1 "T" = 9 / 10 ∧
    ((9 : ℚ) / 10 ≠ 1) := by
  refine ⟨?_, ?_, by norm_num⟩
  · show (1 : ℚ) - ((0 : ℕ) : ℚ) / ((10 : ℕ) : ℚ) = 1
    norm_num
  · show (1 : ℚ) - ((1 : ℕ) : ℚ) / ((10 : ℕ) : ℚ) = 9 / 10
    norm_num

/-- C7 counterexample: in non-strict mode with a target under-assigned by
one, the capacity validator passes with severity Warning, but its message
is the fixed success string, which does not mention the shortfall. -/
theorem c7_counterexample :
    capacityValidate [cexAssignment] [] [cexTargetReq2] [("strict", JValue.jbool false)] =
      .ok { rule_name := "capacity_check", passed := true,
            message := some "All targets have appropriate capacity",
            severity := .warning } ∧
    specMentionsShortfall "All targets have appropriate capacity" = false := by
  exact ⟨rfl, by decide⟩

/-- C4 counterexample: `validate_config` accepts rotation and balance
weights of 1.0 each, and a fresh participant then receives confidence
1 * 1.0 + 1 * 0.5 = 1.5, outside [0, 1]. -/
theorem c4_counterexample :
    balancedValidateConfig cexFullWeightsConfig = .ok () ∧
    ((balancedExecute [] (fun _ => [cexParticipant]) [cexTargetReq1]
        cexFullWeightsConfig).map fun l => l.map Assignment.confidence) = .ok [3 / 2] ∧
    ¬((3 : ℚ) / 2 ≤ 1) := by
  refine ⟨rfl, ?_, by norm_num⟩
  show Except.ok [(1 : ℚ) * 1 + 1 * (1 / 2)] = Except.ok [3 / 2]
  norm_num

/-- C3 (amended): when every stored history stays within the 10-entry
lookback window, the code rotation score coincides with the spec formula;
in particular a participant without history scores 1.0 and a participant
whose whole (nonempty, in-window) history is the scored target scores 0.0.
Without the window bound the code divides the full-history count by
`min length 10`, diverging from the spec (see the counterexample). -/
theorem c3_rotation_score_amended (history : History) (pid : ℕ) (t : String)
    (hb : ∀ p l, (p, l) ∈ history → l.length ≤ 10) :
    rotationScoreOf history pid t = specRotationScore history pid t ∧
    (List.lookup pid history = none → rotationScoreOf history pid t = 1) ∧
    (∀ l, List.lookup pid history = some l → l ≠ [] → (∀ x ∈ l, x = t) →
      rotationScoreOf history pid t = 0) := by
  refine ⟨?_, ?_, ?_⟩
  · unfold rotationScoreOf specRotationScore
    cases hl : List.lookup pid history with
    | none => rfl
    | some h =>
      have hlen : h.length ≤ 10 := hb _ _ (lookup_mem hl)
      have hmin : min h.length 10 = h.length := min_eq_left hlen
      simp only [hmin, List.take_length]
  · intro h
    unfold rotationScoreOf
    rw [h]
  · intro l hl hne hall
    unfold rotationScoreOf
    rw [hl]
    have hlen : l.length ≤ 10 := hb _ _ (lookup_mem hl)
    have hmin : min l.length 10 = l.length := min_eq_left hlen
    have hfil : l.filter (fun x => x = t) = l :=
      List.filter_eq_self.mpr fun a ha => decide_eq_true (hall a ha)
    have hnz : l.length ≠ 0 := fun h0 => hne (List.length_eq_zero.mp h0)
    have hq : ((l.length : ℕ) : ℚ) ≠ 0 := Nat.cast_ne_zero.mpr hnz
    simp only [hmin, hfil, if_neg hnz]
    rw [div_self hq]
    ring

/-- C3 witness: a participant whose single-entry history is the scored
target itself. -/
theorem c3_rotation_score_amended_witness :
    rotationScoreOf [(1, ["A"])] 1 "A" = specRotationScore [(1, ["A"])] 1 "A" ∧
    (List.lookup 1 ([(1, ["A"])] : History) = none →
      rotationScoreOf [(1, ["A"])] 1 "A" = 1) ∧
    (∀ l, List.lookup 1 ([(1, ["A"])] : History) = some l → l ≠ [] →
      (∀ x ∈ l, x = "A") → rotationScoreOf [(1, ["A"])] 1 "A" = 0) :=
  c3_rotation_score_amended [(1, ["A"])] 1 "A" (by
    intro p l h
    rw [List.mem_singleton] at h
    obtain ⟨-, rfl⟩ := Prod.mk.injEq .. ▸ h
    decide)

theorem rotationScore_bounds (history : History) (pid : ℕ) (t : String)
    (hb : ∀ p l, (p, l) ∈ history → l.length ≤ 10) :
    0 ≤ rotationScoreOf history pid t ∧ rotationScoreOf history pid t ≤ 1 := by
  unfold rotationScoreOf
  cases hl : List.lookup pid history with
  | none => norm_num
  | some h =>
    simp only
    by_cases h0 : min h.length 10 = 0
    · rw [if_pos h0]
      norm_num
    · rw [if_neg h0]
      have hlen : h.length ≤ 10 := hb _ _ (lookup_mem hl)
      have hmin : min h.length 10 = h.length := min_eq_left hlen
      have hcnt : (h.filter fun x => x = t).length ≤ min h.length 10 := by
        rw [hmin]
        exact List.length_filter_le _ _
      have hpos : (0 : ℚ) < ((min h.length 10 : ℕ) : ℚ) := by
        exact_mod_cast Nat.pos_of_ne_zero h0
      have hd1 : ((h.filter fun x => x = t).length : ℚ) / ((min h.length 10 : ℕ) : ℚ) ≤ 1 := by
        rw [div_le_one hpos]
        exact_mod_cast hcnt
      have hd0 : (0 : ℚ) ≤ ((h.filter fun x => x = t).length : ℚ) / ((min h.length 10 : ℕ) : ℚ) :=
        div_nonneg (by positivity) (le_of_lt hpos)
      constructor <;> linarith

theorem score_bounds (history : History) (pid : ℕ) (t : String) (rw bw : ℚ)
    (hb : ∀ p l, (p, l) ∈ history → l.length ≤ 10)
    (hrw : 0 ≤ rw) (hbw : 0 ≤ bw) (hsum : rw + bw ≤ 1) :
    0 ≤ calculateAssignmentScore history pid t rw bw ∧
      calculateAssignmentScore history pid t rw bw ≤ 1 := by
  obtain ⟨h0, h1⟩ := rotationScore_bounds history pid t hb
  unfold calculateAssignmentScore
  constructor
  · have := mul_nonneg hrw h0
    have : (0 : ℚ) ≤ bw * (1 / 2) := mul_nonneg hbw (by norm_num)
    nlinarith
  · have ha : rw * rotationScoreOf history pid t ≤ rw * 1 :=
      mul_le_mul_of_nonneg_left h1 hrw
    have hc : bw * (1 / 2) ≤ bw * 1 :=
      mul_le_mul_of_nonneg_left (by norm_num) hbw
    linarith

theorem attemptGo_confidence (history : History) (rw bw : ℚ)
    (hgood : ∀ pid t, 0 ≤ calculateAssignmentScore history pid t rw bw ∧
      calculateAssignmentScore history pid t rw bw ≤ 1) :
    ∀ targets available acc l, attemptGo history rw bw targets available acc = .ok l →
      (∀ a ∈ acc, 0 ≤ a.confidence ∧ a.confidence ≤ 1) →
      ∀ a ∈ l, 0 ≤ a.confidence ∧ a.confidence ≤ 1 := by
  intro targets
  induction targets with
  | nil =>
    intro available acc l h hacc a ha
    unfold attemptGo at h
    cases h
    exact hacc a ha
  | cons tgt rest ih =>
    intro available acc l h hacc a ha
    unfold attemptGo at h
    cases hname : tgt.getAttrString "name" with
    | none => rw [hname] at h; cases h
    | some target_name =>
      rw [hname] at h
      cases hreq : tgt.getAttrU32 "required_count" with
      | none => rw [hreq] at h; cases h
      | some required_count =>
        rw [hreq] at h
        simp only at h
        split at h
        · cases h
        · refine ih _ _ _ h ?_ a ha
          intro b hb
          rcases List.mem_append.mp hb with hb | hb
          · exact hacc b hb
          · obtain ⟨pc, hpc, rfl⟩ := List.mem_map.mp hb
            have hpc2 : pc ∈ sortByScoreDesc ((available.map fun p =>
                (p, calculateAssignmentScore history p.id target_name rw bw))) :=
              List.mem_of_mem_take hpc
            have hpc3 := (List.mem_insertionSort _).mp hpc2
            obtain ⟨p, _, rfl⟩ := List.mem_map.mp hpc3
            exact hgood p.id target_name

theorem balancedLoop_ok (history : History) (shuffles : ℕ → List GenericEntity)
    (targets : List GenericEntity) (config : StrategyConfig) (max_attempts : ℕ) :
    ∀ r s l, balancedLoop history shuffles targets config max_attempts s r = .ok l →
      ∃ k, attemptAssignment history (shuffles k) targets config = .ok l := by
  intro r
  induction r with
  | zero => intro s l h; cases h
  | succ r ih =>
    intro s l h
    unfold balancedLoop at h
    cases hatt : attemptAssignment history (shuffles s) targets config with
    | ok assignments =>
      rw [hatt] at h
      cases h
      exact ⟨s, hatt⟩
    | error e =>
      rw [hatt] at h
      dsimp only at h
      by_cases hr : r = 0
      · rw [if_pos hr] at h; cases h
      · rw [if_neg hr] at h
        exact ih (s + 1) l h

/-- C4 (amended): the random strategy always reports confidence 0.5 and the
skill-based strategy a match ratio, both in [0, 1]; the balanced-rotation
strategy stays in [0, 1] provided the two weights are non-negative and sum
to at most 1 and every stored history is inside the 10-entry lookback
window.  (Without those restrictions the confidence can leave [0, 1]: see
the counterexample.) -/
theorem c4_confidence_amended (history : History) (shuffles : ℕ → List GenericEntity)
    (participants targets shuffled : List GenericEntity) (config : StrategyConfig)
    (hb : ∀ p l, (p, l) ∈ history → l.length ≤ 10)
    (hrw : 0 ≤ getRotationWeight config) (hbw : 0 ≤ getBalanceWeight config)
    (hsum : getRotationWeight config + getBalanceWeight config ≤ 1) :
    (∀ l, balancedExecute history shuffles targets config = .ok l →
      ∀ a ∈ l, 0 ≤ a.confidence ∧ a.confidence ≤ 1) ∧
    (∀ a ∈ randomExecute shuffled targets, 0 ≤ a.confidence ∧ a.confidence ≤ 1) ∧
    (∀ a ∈ skillExecute participants targets, 0 ≤ a.confidence ∧ a.confidence ≤ 1) := by
  refine ⟨?_, ?_, ?_⟩
  · intro l hl a ha
    obtain ⟨k, hk⟩ := balancedLoop_ok history shuffles targets config
      (getMaxAttempts config) (getMaxAttempts config) 1 l hl
    refine attemptGo_confidence history (getRotationWeight config) (getBalanceWeight config)
      (fun pid t => score_bounds history pid t _ _ hb hrw hbw hsum)
      targets (shuffles k) [] l hk (by simp) a ha
  · intro a ha
    obtain ⟨tgt, -, hin⟩ := List.mem_flatMap.mp ha
    simp only at hin
    cases hh : (shuffled.head?) with
    | none => rw [hh] at hin; cases hin
    | some p =>
      rw [hh] at hin
      have := List.eq_of_mem_replicate hin
      subst this
      norm_num
  · intro a ha
    obtain ⟨tgt, -, hin⟩ := List.mem_flatMap.mp ha
    simp only at hin
    obtain ⟨p, -, rfl⟩ := List.mem_map.mp hin
    simp only
    by_cases hemp : ((tgt.getAttrStrList "required_skills").getD []).isEmpty
    · rw [if_pos hemp]
      norm_num
    · rw [if_neg hemp]
      have hlenpos : 0 < ((tgt.getAttrStrList "required_skills").getD []).length := by
        refine List.length_pos.mpr ?_
        simpa [List.isEmpty_iff] using hemp
      have hcnt : skillMatchCount ((tgt.getAttrStrList "required_skills").getD [])
          ((p.getAttrStrList "skills").getD []) ≤
          ((tgt.getAttrStrList "required_skills").getD []).length :=
        List.length_filter_le _ _
      have hposq : (0 : ℚ) < (((tgt.getAttrStrList "required_skills").getD []).length : ℚ) := by
        exact_mod_cast hlenpos
      constructor
      · exact div_nonneg (by positivity) (le_of_lt hposq)
      · rw [div_le_one hposq]
        exact_mod_cast hcnt

/-- C4 witness: empty history and one participant with default weights. -/
theorem c4_confidence_amended_witness :
    (∀ l, balancedExecute [] (fun _ => [cexParticipant]) [cexTargetReq1]
        { name := "balanced_rotation", parameters := [], constraints := [],
          validation_rules := [] } = .ok l →
      ∀ a ∈ l, 0 ≤ a.confidence ∧ a.confidence ≤ 1) ∧
    (∀ a ∈ randomExecute [cexParticipant] [cexTargetReq1],
      0 ≤ a.confidence ∧ a.confidence ≤ 1) ∧
    (∀ a ∈ skillExecute [cexParticipant] [cexTargetReq1],
      0 ≤ a.confidence ∧ a.confidence ≤ 1) :=
  c4_confidence_amended [] (fun _ => [cexParticipant]) [cexParticipant] [cexTargetReq1]
    [cexParticipant]
    { name := "balanced_rotation", parameters := [], constraints := [],
      validation_rules := [] }
    (by intro p l h; cases h)
    (by norm_num [getRotationWeight])
    (by norm_num [getBalanceWeight])
    (by norm_num [getRotationWeight, getBalanceWeight])

theorem balancedLoop_frame (history : History) (shuffles shuffles' : ℕ → List GenericEntity)
    (targets : List GenericEntity) (config : StrategyConfig) (max_attempts : ℕ) :
    ∀ r s, (∀ j, s ≤ j → j < s + r → shuffles j = shuffles' j) →
      balancedLoop history shuffles targets config max_attempts s r =
        balancedLoop history shuffles' targets config max_attempts s r := by
  intro r
  induction r with
  | zero => intro s _; rfl
  | succ r ih =>
    intro s hagree
    unfold balancedLoop
    rw [hagree s le_rfl (by omega)]
    cases hatt : attemptAssignment history (shuffles' s) targets config with
    | ok a => rfl
    | error e =>
      dsimp only
      by_cases hr : r = 0
      · rw [if_pos hr, if_pos hr]
      · rw [if_neg hr, if_neg hr]
        exact ih (s + 1) fun j hj1 hj2 => hagree j (by omega) (by omega)

theorem balancedLoop_first_ok (history : History) (shuffles : ℕ → List GenericEntity)
    (targets : List GenericEntity) (config : StrategyConfig) (max_attempts : ℕ) :
    ∀ r s k l, s ≤ k → k < s + r →
      (∀ j, s ≤ j → j < k →
        ∃ e, attemptAssignment history (shuffles j) targets config = .error e) →
      attemptAssignment history (shuffles k) targets config = .ok l →
      balancedLoop history shuffles targets config max_attempts s r = .ok l := by
  intro r
  induction r with
  | zero => intro s k l h1 h2 _ _; omega
  | succ r ih =>
    intro s k l hsk hkr hfail hk
    unfold balancedLoop
    by_cases hks : k = s
    · subst hks
      rw [hk]
    · have hs : s < k := lt_of_le_of_ne hsk (Ne.symm hks)
      obtain ⟨e, he⟩ := hfail s le_rfl hs
      rw [he]
      dsimp only
      have hr0 : r ≠ 0 := by omega
      rw [if_neg hr0]
      exact ih (s + 1) k l (by omega) (by omega)
        (fun j hj1 hj2 => hfail j (by omega) hj2) hk

theorem balancedLoop_exhausted (history : History) (shuffles : ℕ → List GenericEntity)
    (targets : List GenericEntity) (config : StrategyConfig) (max_attempts : ℕ) :
    ∀ r s, 0 < r →
      (∀ j, s ≤ j → j < s + r →
        ∃ e, attemptAssignment history (shuffles j) targets config = .error e) →
      ∃ e, attemptAssignment history (shuffles (s + r - 1)) targets config = .error e ∧
        balancedLoop history shuffles targets config max_attempts s r =
          .error (exhaustedMsg max_attempts e) := by
  intro r
  induction r with
  | zero => intro s h; omega
  | succ r ih =>
    intro s _ hfail
    by_cases hr : r = 0
    · subst hr
      obtain ⟨e, he⟩ := hfail s le_rfl (by omega)
      refine ⟨e, by simpa using he, ?_⟩
      unfold balancedLoop
      rw [he]
      dsimp only
      rw [if_pos rfl]
    · obtain ⟨e, he, hloop⟩ := ih (s + 1) (Nat.pos_of_ne_zero hr)
        (fun j hj1 hj2 => hfail j (by omega) (by omega))
      have harith : s + 1 + r - 1 = s + (r + 1) - 1 := by omega
      refine ⟨e, by rwa [harith] at he, ?_⟩
      unfold balancedLoop
      obtain ⟨e0, he0⟩ := hfail s le_rfl (by omega)
      rw [he0]
      dsimp only
      rw [if_neg hr]
      exact hloop

theorem legacyLoop_first (tryAttempt : ℕ → Option α) :
    ∀ r s k l, s ≤ k → k < s + r → (∀ j, s ≤ j → j < k → tryAttempt j = none) →
      tryAttempt k = some l → legacyLoop tryAttempt s r = some l := by
  intro r
  induction r with
  | zero => intro s k l h1 h2 _ _; omega
  | succ r ih =>
    intro s k l hsk hkr hfail hk
    unfold legacyLoop
    by_cases hks : k = s
    · subst hks
      rw [hk]
    · have hs : s < k := lt_of_le_of_ne hsk (Ne.symm hks)
      rw [hfail s le_rfl hs]
      exact ih (s + 1) k l (by omega) (by omega)
        (fun j hj1 hj2 => hfail j (by omega) hj2) hk

theorem legacyLoop_none (tryAttempt : ℕ → Option α) :
    ∀ r s, (∀ j, s ≤ j → j < s + r → tryAttempt j = none) →
      legacyLoop tryAttempt s r = none := by
  intro r
  induction r with
  | zero => intro s _; rfl
  | succ r ih =>
    intro s hfail
    unfold legacyLoop
    rw [hfail s le_rfl (by omega)]
    exact ih (s + 1) fun j hj1 hj2 => hfail j (by omega) (by omega)

/-- C2: `execute` consults the RNG for at most `max_attempts` attempts
(changing draws beyond the cap cannot change the result), returns the list
of the first succeeding attempt, and once every attempt up to the cap has
failed it surfaces a terminal error naming the attempt count (wrapping the
last attempt error); the legacy `perform_distribution` loop has the same
contract with its constant cap of 500, returning the first success and
otherwise an error naming 500 attempts. -/
theorem c2_bounded_retry (history : History) (shuffles shuffles' : ℕ → List GenericEntity)
    (targets : List GenericEntity) (config : StrategyConfig)
    (tryAttempt : ℕ → Option (List Assignment)) :
    ((∀ j, 1 ≤ j → j ≤ getMaxAttempts config → shuffles j = shuffles' j) →
      balancedExecute history shuffles targets config =
        balancedExecute history shuffles' targets config) ∧
    (∀ k l, 1 ≤ k → k ≤ getMaxAttempts config →
      (∀ j, 1 ≤ j → j < k →
        ∃ e, attemptAssignment history (shuffles j) targets config = .error e) →
      attemptAssignment history (shuffles k) targets config = .ok l →
      balancedExecute history shuffles targets config = .ok l) ∧
    (1 ≤ getMaxAttempts config →
      (∀ j, 1 ≤ j → j ≤ getMaxAttempts config →
        ∃ e, attemptAssignment history (shuffles j) targets config = .error e) →
      ∃ e, attemptAssignment history (shuffles (getMaxAttempts config)) targets config =
          .error e ∧
        balancedExecute history shuffles targets config =
          .error (exhaustedMsg (getMaxAttempts config) e)) ∧
    (∀ k l, 1 ≤ k → k ≤ legacyMaxAttempts →
      (∀ j, 1 ≤ j → j < k → tryAttempt j = none) → tryAttempt k = some l →
      legacyDistribution tryAttempt = .ok l) ∧
    ((∀ j, 1 ≤ j → j ≤ legacyMaxAttempts → tryAttempt j = none) →
      legacyDistribution tryAttempt = .error legacyExhaustedMsg) := by
  refine ⟨?_, ?_, ?_, ?_, ?_⟩
  · intro hagree
    exact balancedLoop_frame history shuffles shuffles' targets config
      (getMaxAttempts config) (getMaxAttempts config) 1
      fun j hj1 hj2 => hagree j hj1 (by omega)
  · intro k l hk1 hkmax hfail hk
    exact balancedLoop_first_ok history shuffles targets config (getMaxAttempts config)
      (getMaxAttempts config) 1 k l hk1 (by omega) hfail hk
  · intro hmax hfail
    have := balancedLoop_exhausted history shuffles targets config (getMaxAttempts config)
      (getMaxAttempts config) 1 hmax (fun j hj1 hj2 => hfail j hj1 (by omega))
    simpa [show 1 + getMaxAttempts config - 1 = getMaxAttempts config by omega] using this
  · intro k l hk1 hkmax hfail hk
    unfold legacyDistribution
    rw [legacyLoop_first tryAttempt legacyMaxAttempts 1 k l hk1 (by omega) hfail hk]
  · intro hfail
    unfold legacyDistribution
    rw [legacyLoop_none tryAttempt legacyMaxAttempts 1
      fun j hj1 hj2 => hfail j hj1 (by omega)]

/-- C2 witness: with no targets the first attempt succeeds with an empty
assignment list under a 2-attempt cap, and a legacy loop whose every
attempt fails ends with the 500-attempt error. -/
theorem c2_bounded_retry_witness :
    balancedExecute [] (fun _ => [cexParticipant]) [] cex2AttemptsConfig = .ok [] ∧
    legacyDistribution (fun _ => (none : Option (List Assignment))) =
      .error legacyExhaustedMsg := by
  constructor
  · exact (c2_bounded_retry [] (fun _ => [cexParticipant]) (fun _ => [cexParticipant]) []
      cex2AttemptsConfig (fun _ => none)).2.1 1 [] (by omega) (by decide)
      (fun j hj1 hj2 => absurd hj2 (by omega)) rfl
  · exact (c2_bounded_retry [] (fun _ => [cexParticipant]) (fun _ => [cexParticipant]) []
      cex2AttemptsConfig (fun _ => none)).2.2.2.2 fun j hj1 hj2 => rfl

/-- C5: with the same registries and inputs, the Strict and Permissive runs
of `execute_assignment` either agree completely, or the Permissive run
returns a result whose validation list contains a failing Error/Critical
entry and the Strict run aborts with exactly that rule name and message;
in both cases the ValidationResult list computed is identical (it is the
one carried by the Permissive result). -/
theorem c5_mode_equivalence (strategies : List (String × StrategyImpl))
    (validators : List (String × ValidatorImpl)) (strategy_name : String)
    (participants targets : List GenericEntity) (config : StrategyConfig) :
    executeAssignment strategies validators .permissive strategy_name participants
        targets config =
      executeAssignment strategies validators .strict strategy_name participants
        targets config ∨
    (∃ res r,
      executeAssignment strategies validators .permissive strategy_name participants
          targets config = .ok res ∧
      r ∈ res.validation_results ∧ r.passed = false ∧
      (r.severity = .error ∨ r.severity = .critical) ∧
      executeAssignment strategies validators .strict strategy_name participants
          targets config = .error (validationFailedMsg r)) := by
  unfold executeAssignment
  cases hs : strategies.lookup strategy_name with
  | none => left; rfl
  | some strategy =>
    cases hv : strategy.validateConfig config with
    | error e => left; simp [hv]
    | ok u =>
      cases he : strategy.execute participants targets config with
      | error e => left; simp [hv, he]
      | ok assignments =>
        cases hf : (runValidations validators assignments participants targets config).find?
            blocking with
        | none =>
          left
          simp [hv, he, checkValidationResults, hf]
        | some r =>
          right
          refine ⟨{ strategy_used := strategy_name, assignments := assignments,
                    attempts := 1,
                    validation_results :=
                      runValidations validators assignments participants targets config },
                  r, ?_, ?_, ?_, ?_, ?_⟩
          · simp [hv, he, checkValidationResults]
          · exact List.mem_of_find?_eq_some hf
          · have hb := List.find?_some hf
            simp [blocking] at hb
            simpa using hb.1
          · have hb := List.find?_some hf
            simp [blocking] at hb
            exact hb.2
          · simp [hv, he, checkValidationResults, hf]

theorem checkRotationWeight_error {config : StrategyConfig} {m : String}
    (h : checkRotationWeight config = .error m) :
    m ∈ rotationWeightMsgs ∧
      ∃ v, config.parameters.lookup "rotation_weight" = some v ∧ badWeightValue v := by
  unfold checkRotationWeight at h
  cases hl : config.parameters.lookup "rotation_weight" with
  | none => rw [hl] at h; cases h
  | some v =>
    rw [hl] at h
    dsimp only at h
    cases hf : v.asF64 with
    | none =>
      rw [hf] at h
      cases h
      exact ⟨by simp [rotationWeightMsgs], v, rfl, Or.inl hf⟩
    | some w =>
      rw [hf] at h
      dsimp only at h
      by_cases hw : ¬(0 ≤ w ∧ w ≤ 1)
      · rw [if_pos hw] at h
        cases h
        exact ⟨by simp [rotationWeightMsgs], v, rfl, Or.inr ⟨w, hf, hw⟩⟩
      · rw [if_neg hw] at h
        cases h

theorem checkRotationWeight_ok {config : StrategyConfig}
    (h : checkRotationWeight config = .ok ()) :
    ¬∃ v, config.parameters.lookup "rotation_weight" = some v ∧ badWeightValue v := by
  rintro ⟨v, hv, hbad⟩
  unfold checkRotationWeight at h
  rw [hv] at h
  dsimp only at h
  rcases hbad with hf | ⟨w, hf, hw⟩
  · rw [hf] at h; dsimp only at h; cases h
  · rw [hf] at h; dsimp only at h; rw [if_pos hw] at h; cases h

theorem checkBalanceWeight_error {config : StrategyConfig} {m : String}
    (h : checkBalanceWeight config = .error m) :
    m ∈ balanceWeightMsgs ∧
      ∃ v, config.parameters.lookup "balance_weight" = some v ∧ badWeightValue v := by
  unfold checkBalanceWeight at h
  cases hl : config.parameters.lookup "balance_weight" with
  | none => rw [hl] at h; cases h
  | some v =>
    rw [hl] at h
    dsimp only at h
    cases hf : v.asF64 with
    | none =>
      rw [hf] at h
      cases h
      exact ⟨by simp [balanceWeightMsgs], v, rfl, Or.inl hf⟩
    | some w =>
      rw [hf] at h
      dsimp only at h
      by_cases hw : ¬(0 ≤ w ∧ w ≤ 1)
      · rw [if_pos hw] at h
        cases h
        exact ⟨by simp [balanceWeightMsgs], v, rfl, Or.inr ⟨w, hf, hw⟩⟩
      · rw [if_neg hw] at h
        cases h

theorem checkBalanceWeight_ok {config : StrategyConfig}
    (h : checkBalanceWeight config = .ok ()) :
    ¬∃ v, config.parameters.lookup "balance_weight" = some v ∧ badWeightValue v := by
  rintro ⟨v, hv, hbad⟩
  unfold checkBalanceWeight at h
  rw [hv] at h
  dsimp only at h
  rcases hbad with hf | ⟨w, hf, hw⟩
  · rw [hf] at h; dsimp only at h; cases h
  · rw [hf] at h; dsimp only at h; rw [if_pos hw] at h; cases h

theorem checkMaxAttemptsParam_error {config : StrategyConfig} {m : String}
    (h : checkMaxAttemptsParam config = .error m) :
    m ∈ maxAttemptsMsgs ∧
      ∃ v, config.parameters.lookup "max_attempts" = some v ∧ badMaxAttemptsValue v := by
  unfold checkMaxAttemptsParam at h
  cases hl : config.parameters.lookup "max_attempts" with
  | none => rw [hl] at h; cases h
  | some v =>
    rw [hl] at h
    dsimp only at h
    cases hf : v.asU64 with
    | none =>
      rw [hf] at h
      cases h
      exact ⟨by simp [maxAttemptsMsgs], v, rfl, Or.inl hf⟩
    | some a =>
      rw [hf] at h
      dsimp only at h
      by_cases ha : a = 0 ∨ a > 1000
      · rw [if_pos ha] at h
        cases h
        exact ⟨by simp [maxAttemptsMsgs], v, rfl, Or.inr ⟨a, hf, ha⟩⟩
      · rw [if_neg ha] at h
        cases h

theorem checkMaxAttemptsParam_ok {config : StrategyConfig}
    (h : checkMaxAttemptsParam config = .ok ()) :
    ¬∃ v, config.parameters.lookup "max_attempts" = some v ∧ badMaxAttemptsValue v := by
  rintro ⟨v, hv, hbad⟩
  unfold checkMaxAttemptsParam at h
  rw [hv] at h
  dsimp only at h
  rcases hbad with hf | ⟨a, hf, ha⟩
  · rw [hf] at h; dsimp only at h; cases h
  · rw [hf] at h; dsimp only at h; rw [if_pos ha] at h; cases h

/-- C6: when `rotation_weight` or `balance_weight` is present but not a
number in [0, 1], or `max_attempts` is present but not a positive integer
in [1, 1000], `validate_config` fails with a message naming an offending
parameter, and `execute_assignment` returns exactly that error — the
strategy is never executed (the result does not depend on the RNG draws,
which are universally quantified here). -/
theorem c6_invalid_config_rejected (history : History)
    (shuffles : ℕ → List GenericEntity) (validators : List (String × ValidatorImpl))
    (mode : ValidationMode) (participants targets : List GenericEntity)
    (config : StrategyConfig)
    (hbad :
      (∃ v, config.parameters.lookup "rotation_weight" = some v ∧ badWeightValue v) ∨
      (∃ v, config.parameters.lookup "balance_weight" = some v ∧ badWeightValue v) ∨
      (∃ v, config.parameters.lookup "max_attempts" = some v ∧ badMaxAttemptsValue v)) :
    ∃ m, balancedValidateConfig config = .error m ∧
      ((m ∈ rotationWeightMsgs ∧
        ∃ v, config.parameters.lookup "rotation_weight" = some v ∧ badWeightValue v) ∨
       (m ∈ balanceWeightMsgs ∧
        ∃ v, config.parameters.lookup "balance_weight" = some v ∧ badWeightValue v) ∨
       (m ∈ maxAttemptsMsgs ∧
        ∃ v, config.parameters.lookup "max_attempts" = some v ∧ badMaxAttemptsValue v)) ∧
      executeAssignment (bootStrategies history shuffles) validators mode
        "balanced_rotation" participants targets config = .error m := by
  have hmain : ∃ m, balancedValidateConfig config = .error m ∧
      ((m ∈ rotationWeightMsgs ∧
        ∃ v, config.parameters.lookup "rotation_weight" = some v ∧ badWeightValue v) ∨
       (m ∈ balanceWeightMsgs ∧
        ∃ v, config.parameters.lookup "balance_weight" = some v ∧ badWeightValue v) ∨
       (m ∈ maxAttemptsMsgs ∧
        ∃ v, config.parameters.lookup "max_attempts" = some v ∧ badMaxAttemptsValue v)) := by
    unfold balancedValidateConfig
    cases hr : checkRotationWeight config with
    | error m => exact ⟨m, rfl, Or.inl (checkRotationWeight_error hr)⟩
    | ok u =>
      cases u
      cases hb : checkBalanceWeight config with
      | error m => exact ⟨m, rfl, Or.inr (Or.inl (checkBalanceWeight_error hb))⟩
      | ok u =>
        cases u
        cases hm : checkMaxAttemptsParam config with
        | error m => exact ⟨m, rfl, Or.inr (Or.inr (checkMaxAttemptsParam_error hm))⟩
        | ok u =>
          cases u
          exact absurd hbad (by
            push_neg
            exact ⟨fun v hv => by
                have := checkRotationWeight_ok hr
                intro hb2
                exact this ⟨v, hv, hb2⟩,
              fun v hv => by
                have := checkBalanceWeight_ok hb
                intro hb2
                exact this ⟨v, hv, hb2⟩,
              fun v hv => by
                have := checkMaxAttemptsParam_ok hm
                intro hb2
                exact this ⟨v, hv, hb2⟩⟩)
  obtain ⟨m, hval, hname⟩ := hmain
  refine ⟨m, hval, hname, ?_⟩
  unfold executeAssignment
  have hlook : (bootStrategies history shuffles).lookup "balanced_rotation" =
      some (balancedStrategyImpl history shuffles) := rfl
  rw [hlook]
  dsimp only
  rw [show (balancedStrategyImpl history shuffles).validateConfig config =
    Except.error m from hval]

/-- C6 witness: a string-valued `rotation_weight` is rejected and the
rejection propagates through `execute_assignment`. -/
theorem c6_invalid_config_rejected_witness :
    ∃ m, balancedValidateConfig cexBadConfig = .error m ∧
      ((m ∈ rotationWeightMsgs ∧
        ∃ v, cexBadConfig.parameters.lookup "rotation_weight" = some v ∧ badWeightValue v) ∨
       (m ∈ balanceWeightMsgs ∧
        ∃ v, cexBadConfig.parameters.lookup "balance_weight" = some v ∧ badWeightValue v) ∨
       (m ∈ maxAttemptsMsgs ∧
        ∃ v, cexBadConfig.parameters.lookup "max_attempts" = some v ∧
          badMaxAttemptsValue v)) ∧
      executeAssignment (bootStrategies [] fun _ => []) bootValidators .strict
        "balanced_rotation" [] [] cexBadConfig = .error m :=
  c6_invalid_config_rejected [] (fun _ => []) bootValidators .strict [] [] cexBadConfig
    (Or.inl ⟨JValue.jstr "high", rfl, Or.inl rfl⟩)

theorem capacityViolations_nil (assignments : List Assignment) :
    ∀ targets : List GenericEntity,
      (∀ t ∈ targets, targetCount assignments t.id ≤ (t.getAttrU32 "required_count").getD 1) →
      capacityViolations assignments false targets = [] := by
  intro targets
  induction targets with
  | nil => intro _; rfl
  | cons t rest ih =>
    intro hno
    unfold capacityViolations
    dsimp only
    rw [if_neg (not_lt.mpr (hno t (List.mem_cons_self t rest)))]
    rw [if_neg (fun hc => absurd hc.2 (by decide))]
    rw [List.nil_append]
    exact ih fun u hu => hno u (List.mem_cons_of_mem t hu)

/-- C7 (amended): in non-strict mode, with no target over-assigned and some
target under-assigned by one, the capacity validator reports
`passed = true` with severity Warning — but its message is the fixed
success string; the shortfall is only written to the log, not to the
returned `ValidationResult`. -/
theorem c7_capacity_nonstrict_amended (assignments : List Assignment)
    (participants targets : List GenericEntity) (config : List (String × JValue))
    (hstrict : ((config.lookup "strict").bind JValue.asBool).getD true = false)
    (hunder : ∃ t ∈ targets,
      targetCount assignments t.id + 1 = (t.getAttrU32 "required_count").getD 1)
    (hnoover : ∀ t ∈ targets,
      targetCount assignments t.id ≤ (t.getAttrU32 "required_count").getD 1) :
    capacityValidate assignments participants targets config =
      .ok { rule_name := "capacity_check", passed := true,
            message := some "All targets have appropriate capacity",
            severity := .warning } := by
  unfold capacityValidate
  rw [hstrict]
  dsimp only
  rw [capacityViolations_nil assignments targets hnoover]
  rfl

/-- C7 witness: one assignment against a target that needs two. -/
theorem c7_capacity_nonstrict_amended_witness :
    capacityValidate [cexAssignment] [] [cexTargetReq2] [("strict", JValue.jbool false)] =
      .ok { rule_name := "capacity_check", passed := true,
            message := some "All targets have appropriate capacity",
            severity := .warning } :=
  c7_capacity_nonstrict_amended [cexAssignment] [] [cexTargetReq2]
    [("strict", JValue.jbool false)] rfl
    ⟨cexTargetReq2, by simp, by decide⟩
    (by decide)

theorem runValidationRules_cons_none (validators : List (String × ValidatorImpl))
    (assignments : List Assignment) (participants targets : List GenericEntity)
    (parameters : List (String × JValue)) (rule_name : String) (rest : List String)
    (hl : validators.lookup rule_name = none) :
    runValidationRules validators assignments participants targets parameters
        (rule_name :: rest) =
      runValidationRules validators assignments participants targets parameters rest := by
  rw [runValidationRules, hl]

theorem runValidationRules_cons_ok (validators : List (String × ValidatorImpl))
    (assignments : List Assignment) (participants targets : List GenericEntity)
    (parameters : List (String × JValue)) (rule_name : String) (rest : List String)
    (v : ValidatorImpl) (result : ValidationResult)
    (hl : validators.lookup rule_name = some v)
    (hv : v assignments participants targets (ruleConfigFor parameters rule_name) =
      .ok result) :
    runValidationRules validators assignments participants targets parameters
        (rule_name :: rest) =
      result ::
        runValidationRules validators assignments participants targets parameters rest := by
  rw [runValidationRules, hl]
  dsimp only
  rw [hv]

theorem runValidationRules_cons_err (validators : List (String × ValidatorImpl))
    (assignments : List Assignment) (participants targets : List GenericEntity)
    (parameters : List (String × JValue)) (rule_name : String) (rest : List String)
    (v : ValidatorImpl) (e : String)
    (hl : validators.lookup rule_name = some v)
    (hv : v assignments participants targets (ruleConfigFor parameters rule_name) =
      .error e) :
    runValidationRules validators assignments participants targets parameters
        (rule_name :: rest) =
      validatorErrorResult rule_name e ::
        runValidationRules validators assignments participants targets parameters rest := by
  rw [runValidationRules, hl]
  dsimp only
  rw [hv]

theorem runValidationRules_append (validators : List (String × ValidatorImpl))
    (assignments : List Assignment) (participants targets : List GenericEntity)
    (parameters : List (String × JValue)) :
    ∀ l₁ l₂ : List String,
      runValidationRules validators assignments participants targets parameters (l₁ ++ l₂) =
        runValidationRules validators assignments participants targets parameters l₁ ++
          runValidationRules validators assignments participants targets parameters l₂ := by
  intro l₁ l₂
  induction l₁ with
  | nil => rfl
  | cons n rest ih =>
    show runValidationRules validators assignments participants targets parameters
        (n :: (rest ++ l₂)) = _
    cases hl : validators.lookup n with
    | none =>
      rw [runValidationRules_cons_none validators assignments participants targets
          parameters n (rest ++ l₂) hl,
        runValidationRules_cons_none validators assignments participants targets
          parameters n rest hl, ih]
    | some v =>
      cases hv : v assignments participants targets (ruleConfigFor parameters n) with
      | ok result =>
        rw [runValidationRules_cons_ok validators assignments participants targets
            parameters n (rest ++ l₂) v result hl hv,
          runValidationRules_cons_ok validators assignments participants targets
            parameters n rest v result hl hv, ih, List.cons_append]
      | error e =>
        rw [runValidationRules_cons_err validators assignments participants targets
            parameters n (rest ++ l₂) v e hl hv,
          runValidationRules_cons_err validators assignments participants targets
            parameters n rest v e hl hv, ih, List.cons_append]

/-- C9: a registered validator that itself errors does not abort
`run_validations`: its error is recorded as a failing Error-severity
result with the error text in the message, and the validators before and
after it still contribute their results; an unregistered rule name is
skipped entirely. -/
theorem c9_validator_error_isolated (validators : List (String × ValidatorImpl))
    (assignments : List Assignment) (participants targets : List GenericEntity)
    (parameters : List (String × JValue)) (names₁ names₂ : List String)
    (rule_name : String) :
    (∀ v e, validators.lookup rule_name = some v →
      v assignments participants targets (ruleConfigFor parameters rule_name) = .error e →
      runValidationRules validators assignments participants targets parameters
          (names₁ ++ rule_name :: names₂) =
        runValidationRules validators assignments participants targets parameters names₁ ++
          validatorErrorResult rule_name e ::
            runValidationRules validators assignments participants targets parameters
              names₂) ∧
    (validators.lookup rule_name = none →
      runValidationRules validators assignments participants targets parameters
          (names₁ ++ rule_name :: names₂) =
        runValidationRules validators assignments participants targets parameters names₁ ++
          runValidationRules validators assignments participants targets parameters
            names₂) := by
  constructor
  · intro v e hl hv
    rw [runValidationRules_append validators assignments participants targets parameters
      names₁ (rule_name :: names₂)]
    rw [runValidationRules_cons_err validators assignments participants targets parameters
      rule_name names₂ v e hl hv]
  · intro hl
    rw [runValidationRules_append validators assignments participants targets parameters
      names₁ (rule_name :: names₂)]
    rw [runValidationRules_cons_none validators assignments participants targets parameters
      rule_name names₂ hl]

/-- C9 witness: a registry with one failing validator, run between an
unregistered name and the capacity check. -/
theorem c9_validator_error_isolated_witness :
    runValidationRules [("boom", cexFailingValidator)] [] [] [] []
        (["missing"] ++ "boom" :: []) =
      runValidationRules [("boom", cexFailingValidator)] [] [] [] [] ["missing"] ++
        validatorErrorResult "boom" "kaput" ::
          runValidationRules [("boom", cexFailingValidator)] [] [] [] [] [] :=
  (c9_validator_error_isolated [("boom", cexFailingValidator)] [] [] [] [] ["missing"] []
    "boom").1 cexFailingValidator "kaput" rfl rfl

theorem lookup_filter_ne {m : List (ℕ × Bool)} {pid x : ℕ} (h : pid ≠ x) :
    (m.filter fun e => e.1 ≠ x).lookup pid = m.lookup pid := by
  induction m with
  | nil => rfl
  | cons hd tl ih =>
    obtain ⟨k, v⟩ := hd
    rw [List.filter_cons]
    by_cases hk : k = x
    · subst hk
      rw [if_neg (by simp)]
      rw [ih, List.lookup_cons]
      rw [show (pid == k) = false from beq_eq_false_iff_ne.mpr h]
    · rw [if_pos (by simpa using hk)]
      rw [List.lookup_cons, List.lookup_cons]
      cases hpk : pid == k with
      | true => rfl
      | false => exact ih

theorem availabilityMap_lookup_false (participants : List GenericEntity) (pid : ℕ) :
    (availabilityMap participants).lookup pid = some false →
    ∃ p ∈ participants, p.id = pid ∧ p.getAttrBool "availability" = some false := by
  have main : ∀ ps : List GenericEntity, ∀ m : List (ℕ × Bool),
      (ps.foldl (fun m p => (p.id, (p.getAttrBool "availability").getD true) ::
        m.filter fun e => e.1 ≠ p.id) m).lookup pid = some false →
      (∃ p ∈ ps, p.id = pid ∧ p.getAttrBool "availability" = some false) ∨
        m.lookup pid = some false := by
    intro ps
    induction ps with
    | nil => intro m h; right; exact h
    | cons p rest ih =>
      intro m h
      rw [List.foldl_cons] at h
      rcases ih _ h with hin | hm
      · obtain ⟨q, hq, hq2⟩ := hin
        exact Or.inl ⟨q, List.mem_cons_of_mem p hq, hq2⟩
      · by_cases hp : pid = p.id
        · subst hp
          rw [List.lookup, beq_self_eq_true] at hm
          left
          refine ⟨p, List.mem_cons_self p rest, rfl, ?_⟩
          cases hb : p.getAttrBool "availability" with
          | none => rw [hb] at hm; cases hm
          | some b =>
            rw [hb] at hm
            cases b
            · rfl
            · cases hm
        · rw [List.lookup, beq_eq_false_iff_ne.mpr hp] at hm
          rw [lookup_filter_ne hp] at hm
          exact Or.inr hm
  intro h
  rcases main participants [] h with hin | hm
  · exact hin
  · cases hm

/-- C10: with no `strict` key the availability check reports severity
Warning regardless of outcome; a participant is only ever flagged when its
`availability` attribute deserializes to `false`, so one lacking the key
(or any non-boolean value) is treated as available; when every participant
is un-flaggable the check passes, and when some assignment hits a
participant mapped to `false` the check fails (still at Warning severity
by default). -/
theorem c10_availability_defaults (assignments : List Assignment)
    (participants targets : List GenericEntity) (config : List (String × JValue))
    (r : ValidationResult)
    (hr : availabilityValidate assignments participants targets config = .ok r) :
    (config.lookup "strict" = none → r.severity = .warning) ∧
    (∀ pid, (availabilityMap participants).lookup pid = some false →
      ∃ p ∈ participants, p.id = pid ∧ p.getAttrBool "availability" = some false) ∧
    ((∀ p ∈ participants, p.getAttrBool "availability" ≠ some false) → r.passed = true) ∧
    ((∃ a ∈ assignments,
        (availabilityMap participants).lookup a.participant_id = some false) →
      r.passed = false) := by
  unfold availabilityValidate at hr
  cases hr
  refine ⟨?_, fun pid => availabilityMap_lookup_false participants pid, ?_, ?_⟩
  · intro hnone
    dsimp only
    rw [hnone]
    rfl
  · intro hall
    dsimp only
    have hfil : (assignments.filter fun a =>
        (availabilityMap participants).lookup a.participant_id = some false) = [] := by
      rw [List.filter_eq_nil_iff]
      intro a _
      intro hflag
      rw [decide_eq_true_eq] at hflag
      obtain ⟨p, hp, -, hfalse⟩ := availabilityMap_lookup_false participants
        a.participant_id hflag
      exact hall p hp hfalse
    unfold unavailableNames
    rw [hfil]
    rfl
  · intro hflag
    dsimp only
    obtain ⟨a, ha, hfa⟩ := hflag
    have hmem : a ∈ assignments.filter fun b =>
        (availabilityMap participants).lookup b.participant_id = some false :=
      List.mem_filter.mpr ⟨ha, decide_eq_true hfa⟩
    unfold unavailableNames
    cases hcase : assignments.filter fun b =>
        (availabilityMap participants).lookup b.participant_id = some false with
    | nil => rw [hcase] at hmem; cases hmem
    | cons x xs => rfl

/-- C10 witness: one participant without an availability key and one with
`availability = false`, the latter assigned. -/
theorem c10_availability_defaults_witness :
    cexAvailabilityResult.severity = ValidationSeverity.warning ∧
    (∃ p ∈ [cexParticipant, cexUnavailableParticipant],
      p.id = 7 ∧ p.getAttrBool "availability" = some false) ∧
    cexAvailabilityResult.passed = false := by
  have h := c10_availability_defaults [cexUnavailableAssignment]
    [cexParticipant, cexUnavailableParticipant] [] [] cexAvailabilityResult rfl
  exact ⟨h.1 rfl, h.2.1 7 rfl, h.2.2.2 ⟨cexUnavailableAssignment, by simp, rfl⟩⟩

end VividShift
